import Mathlib

/-!
Verification development for the Playwright trace exporter and the diet
Playwright MCP tool layer.  Pure functions are translated directly from the
TypeScript sources (`snapshotViewport.ts`, the browser tool index, and the
`generateAnchor` replica in `trace-exporter.spec.ts`).  The trace-exporter
core (ingestor, asset extractor, snapshot renderer) ships outside this
repository's source tree, so those components are modelled from the
specification, as indicated by each definition's doc comment.
-/

set_option maxRecDepth 10000

-- ===========================================================================
-- Characters and small string helpers
-- ===========================================================================

/-- The double-quote character. -/
def quoteChar : Char := Char.ofNat 34

/-- The single-quote character. -/
def aposChar : Char := Char.ofNat 39

/-- The backslash character. -/
def backslashChar : Char := Char.ofNat 92

/-- Executable string prefix test (the JavaScript `String.startsWith`). -/
def strStartsWith (s pre : String) : Bool := List.isPrefixOf pre.data s.data

/-- Executable ASCII lowercasing. -/
def strToLower (s : String) : String := String.mk (s.data.map Char.toLower)

-- ===========================================================================
-- C5: timeline table-of-contents anchors
-- (translated from src/tests/library/trace-exporter.spec.ts lines 254-256,
--  the stated replica of the anchor logic in traceExporter.ts)
-- ===========================================================================

/-- ASCII slice of the JavaScript regex class `\w`: letters, digits, underscore. -/
def isWordCharJS (c : Char) : Bool :=
  (Char.ofNat 97 ≤ c && c ≤ Char.ofNat 122) ||
  (Char.ofNat 65 ≤ c && c ≤ Char.ofNat 90) ||
  (Char.ofNat 48 ≤ c && c ≤ Char.ofNat 57) ||
  c = '_'

/-- ASCII slice of the JavaScript regex class `\s`. -/
def isSpaceCharJS (c : Char) : Bool :=
  c = ' ' || c = Char.ofNat 9 || c = Char.ofNat 10 || c = Char.ofNat 11 ||
  c = Char.ofNat 12 || c = Char.ofNat 13

/-- Translation of
`text.toLowerCase().replace(/[^\w\s-]/g, '').replace(/ /g, '-')`:
lowercase, delete every character outside word/whitespace/hyphen, then map
each space character (only U+0020) to a hyphen. -/
def generateAnchor (text : String) : String :=
  String.mk
    (((text.data.map Char.toLower).filter
        (fun c => isWordCharJS c || isSpaceCharJS c || c = '-')).map
      (fun c => if c = ' ' then '-' else c))

-- ===========================================================================
-- C10: filteredTools
-- (translated from src/unnamed/part_000 lines 314-333)
-- ===========================================================================

/-- Schema of an MCP tool; only the name participates in filtering. -/
structure ToolSchema where
  name : String
deriving DecidableEq, Repr

/-- A browser tool: its capability tag and its schema. -/
structure McpTool where
  capability : String
  schema : ToolSchema
deriving DecidableEq, Repr

/-- The `tools` section of the configuration: optional allow and deny lists. -/
structure ToolListConfig where
  allowList : Option (List String)
  denyList : Option (List String)
deriving DecidableEq, Repr

/-- The slice of `FullConfig` that `filteredTools` reads. -/
structure FullConfig where
  capabilities : Option (List String)
  tools : Option ToolListConfig
deriving DecidableEq, Repr

/-- Stage 1 predicate: `tool.capability.startsWith('core') ||
config.capabilities?.includes(tool.capability)` (optional chaining on a
missing list is falsy). -/
def capabilityAllowed (config : FullConfig) (tool : McpTool) : Bool :=
  strStartsWith tool.capability "core" ||
    (match config.capabilities with
     | some caps => caps.contains tool.capability
     | none => false)

/-- Stage 2: apply the allow-list when it is present and non-empty. -/
def applyAllowList (config : FullConfig) (tools : List McpTool) : List McpTool :=
  match config.tools with
  | some tc =>
    match tc.allowList with
    | some al =>
      if al.length > 0 then tools.filter (fun t => al.contains t.schema.name) else tools
    | none => tools
  | none => tools

/-- Stage 3: apply the deny-list when it is present and non-empty. -/
def applyDenyList (config : FullConfig) (tools : List McpTool) : List McpTool :=
  match config.tools with
  | some tc =>
    match tc.denyList with
    | some dl =>
      if dl.length > 0 then tools.filter (fun t => !(dl.contains t.schema.name)) else tools
    | none => tools
  | none => tools

/-- Translation of `filteredTools`, parameterized by the global tool list
(whose members come from modules outside this repository). -/
def filteredTools (browserTools : List McpTool) (config : FullConfig) : List McpTool :=
  applyDenyList config (applyAllowList config (browserTools.filter (capabilityAllowed config)))

-- ===========================================================================
-- C8 / C9: browser_navigate_then_wait_for
-- (translated from
--  src/packages/playwright/src/mcp/browser/tools/snapshotViewport.ts, 90-120)
-- ===========================================================================

/-- Input parameters of `browser_navigate_then_wait_for` (`url` required,
`time`, `text`, `textGone` optional). -/
structure NavWaitParams where
  url : String
  time : Option ℚ
  text : Option String
  textGone : Option String
deriving DecidableEq, Repr

/-- JavaScript falsiness of an optional string: absent or the empty string. -/
def jsFalsyOptStr : Option String → Bool
  | none => true
  | some s => s = ""

/-- JavaScript falsiness of an optional number: absent or zero
(NaN is outside this rational model). -/
def jsFalsyOptNum : Option ℚ → Bool
  | none => true
  | some t => t = 0

/-- Which condition the final result message reports: the first truthy of
`params.text || params.textGone || params.time`. -/
inductive WaitedFor where
  | forText (s : String)
  | forTextGone (s : String)
  | forTime (t : ℚ)
deriving DecidableEq, Repr

/-- Observable steps the handler takes, in order.  `codeGoto`,
`codeSetTimeoutSeconds`, `codeWaitForHidden` and `codeWaitForVisible` are
the `response.addCode` snippets; `delayMs` is the actually awaited
`setTimeout` duration; the remaining constructors mirror the other calls. -/
inductive NavEffect where
  | ensureTab
  | navigate (url : String)
  | codeGoto (url : String)
  | codeSetTimeoutSeconds (t : ℚ)
  | delayMs (ms : ℚ)
  | codeWaitForHidden (text : String)
  | waitForHidden (text : String)
  | codeWaitForVisible (text : String)
  | waitForVisible (text : String)
  | addResult (url : String) (w : WaitedFor)
  | setIncludeSnapshot
deriving DecidableEq, Repr

/-- First truthy of `params.text || params.textGone || params.time`,
as interpolated into the result message. -/
def navWaitedFor (p : NavWaitParams) : WaitedFor :=
  if jsFalsyOptStr p.text = false then WaitedFor.forText (p.text.getD "")
  else if jsFalsyOptStr p.textGone = false then WaitedFor.forTextGone (p.textGone.getD "")
  else WaitedFor.forTime (p.time.getD 0)

/-- Effects of a successful (non-throwing) run, in source order: acquire the
tab, navigate, record the goto snippet; when `time` is truthy record the
uncapped snippet and await `min 30000 (time * 1000)` milliseconds; wait for
`textGone` to disappear, then for `text` to appear (each with its snippet,
when truthy); record the result message and request a snapshot. -/
def navOkEffects (p : NavWaitParams) : List NavEffect :=
  [NavEffect.ensureTab, NavEffect.navigate p.url, NavEffect.codeGoto p.url]
    ++ (match p.time with
        | some t =>
          if t = 0 then []
          else [NavEffect.codeSetTimeoutSeconds t, NavEffect.delayMs (min 30000 (t * 1000))]
        | none => [])
    ++ (match p.textGone with
        | some s =>
          if s = "" then []
          else [NavEffect.codeWaitForHidden s, NavEffect.waitForHidden s]
        | none => [])
    ++ (match p.text with
        | some s =>
          if s = "" then []
          else [NavEffect.codeWaitForVisible s, NavEffect.waitForVisible s]
        | none => [])
    ++ [NavEffect.addResult p.url (navWaitedFor p), NavEffect.setIncludeSnapshot]

/-- Translation of the `handle` function of `browser_navigate_then_wait_for`:
the guard throws before any tab creation or navigation; afterwards the
effects of `navOkEffects` happen in source order.  The awaited delay is
`Math.min(30000, time * 1000)` while the recorded snippet interpolates the
raw `time` into `setTimeout(f, time * 1000)`. -/
def navigateThenWaitForHandle (p : NavWaitParams) : Except String (List NavEffect) :=
  if jsFalsyOptStr p.text && jsFalsyOptStr p.textGone && jsFalsyOptNum p.time then
    Except.error "Either time, text or textGone must be provided"
  else
    Except.ok (navOkEffects p)

-- ===========================================================================
-- Association lists (URL→hash maps and the callId→action store)
-- ===========================================================================

/-- Lookup in an association list keyed by strings. -/
def lookupAssoc {α : Type} (m : List (String × α)) (k : String) : Option α :=
  match m with
  | [] => none
  | p :: rest => if p.fst = k then some p.snd else lookupAssoc rest k

/-- Overwrite-or-append update of an association list (assignment semantics
of a JavaScript `Map.set`). -/
def setAssoc {α : Type} (m : List (String × α)) (k : String) (v : α) : List (String × α) :=
  match m with
  | [] => [(k, v)]
  | p :: rest => if p.fst = k then (k, v) :: rest else p :: setAssoc rest k v

-- ===========================================================================
-- C6: event ingestion (before / after)
-- Modelled from the spec: the trace-exporter ingestor is not part of this
-- repository's source tree.
-- ===========================================================================

/-- An attachment carried by an `after` event (name, content type, hash). -/
structure TraceAttachment where
  name : String
  contentType : String
  sha1 : Option String
deriving DecidableEq, Repr

/-- Modelled from the spec: the action record built during ingestion
(§3 Action), restricted to the fields the `before`/`after` handlers touch. -/
structure ActionEntry where
  callId : String
  apiName : String
  className : String
  startTime : ℚ
  endTime : Option ℚ
  error : Option String
  result : Option String
  beforeSnapshot : Option String
  afterSnapshot : Option String
  attachments : List TraceAttachment
deriving DecidableEq, Repr

/-- Payload of a `before` trace event. -/
structure BeforeEvent where
  callId : String
  apiName : String
  className : String
  startTime : ℚ
  beforeSnapshot : Option String
deriving DecidableEq, Repr

/-- Payload of an `after` trace event. -/
structure AfterEvent where
  callId : String
  endTime : ℚ
  error : Option String
  result : Option String
  afterSnapshot : Option String
  attachments : List TraceAttachment
deriving DecidableEq, Repr

/-- Modelled from the spec: the slice of the trace model that the
`before`/`after` handlers read and write — the actions keyed by `callId`. -/
structure TraceModel where
  actions : List (String × ActionEntry)
deriving DecidableEq, Repr

/-- Modelled from the spec (§4.B `before`): the fresh action created from a
`before` event. -/
def actionOfBefore (e : BeforeEvent) : ActionEntry :=
  ⟨e.callId, e.apiName, e.className, e.startTime, none, none, none,
    e.beforeSnapshot, none, []⟩

/-- Modelled from the spec (§4.B): `before` creates an action keyed by
`callId`; a duplicate `callId` overwrites. -/
def dispatchBefore (m : TraceModel) (e : BeforeEvent) : TraceModel :=
  ⟨setAssoc m.actions e.callId (actionOfBefore e)⟩

/-- Modelled from the spec (§4.B `after`): fill `endTime`, `error`, `result`,
`afterSnapshot` and attachments of the existing action. -/
def fillFromAfter (a : ActionEntry) (e : AfterEvent) : ActionEntry :=
  ⟨a.callId, a.apiName, a.className, a.startTime, some e.endTime, e.error,
    e.result, a.beforeSnapshot, e.afterSnapshot, e.attachments⟩

/-- Modelled from the spec (§4.B): `after` looks up by `callId`; if the
`callId` is unknown the event is dropped and the model is unchanged. -/
def dispatchAfter (m : TraceModel) (e : AfterEvent) : TraceModel :=
  match lookupAssoc m.actions e.callId with
  | some a => ⟨setAssoc m.actions e.callId (fillFromAfter a e)⟩
  | none => m

-- ===========================================================================
-- C7: attachment filename sanitization
-- Modelled from the spec (§4.E): replace any of / \ : * ? " < > | with `_`.
-- ===========================================================================

/-- The characters the asset extractor replaces in declared attachment
names: slash, backslash, colon, asterisk, question mark, double quote,
angle brackets and pipe. -/
def kBadFilenameChars : List Char :=
  ['/', backslashChar, ':', '*', '?', quoteChar, '<', '>', '|']

/-- Modelled from the spec: one character of the sanitization. -/
def sanitizeChar (c : Char) : Char :=
  if kBadFilenameChars.contains c then '_' else c

/-- Modelled from the spec (§4.E): sanitize a declared attachment filename. -/
def sanitizeFilename (s : String) : String :=
  String.mk (s.data.map sanitizeChar)

/-- Modelled from the spec (§6 output layout): the relative output path of an
extracted attachment. -/
def attachmentPath (declaredName : String) : String :=
  "assets/attachments/" ++ sanitizeFilename declaredName

/-- Split a character list into segments separated by `/` (path segments). -/
def splitSlash : List Char → List (List Char)
  | [] => [[]]
  | c :: rest =>
    match splitSlash rest with
    | seg :: segs => if c = '/' then [] :: seg :: segs else (c :: seg) :: segs
    | [] => [[c]]

-- ===========================================================================
-- Snapshot renderer data model
-- Modelled from the spec (§3 data model, §4.F renderer): the renderer is not
-- part of this repository's source tree.
-- ===========================================================================

mutual
/-- Modelled from the spec (§3): a DOM node is a text node, a subtree
reference `[snapshotsAgo, nodeIndex]`, or an element with a name, an
attribute map and ordered children. -/
inductive NodeT where
  | text (s : String)
  | ref (snapshotsAgo nodeIndex : Nat)
  | elem (name : String) (attrs : List (String × String)) (children : NodeList)
deriving DecidableEq, Repr
/-- Ordered list of DOM nodes (mutual with `NodeT`). -/
inductive NodeList where
  | nil
  | cons (head : NodeT) (tail : NodeList)
deriving DecidableEq, Repr
end

/-- Convert a plain list of nodes into a `NodeList`. -/
def nodesOf : List NodeT → NodeList
  | [] => NodeList.nil
  | t :: ts => NodeList.cons t (nodesOf ts)

/-- Modelled from the spec (§3): a resource override `{url, sha1?, ref?}`;
`ref` means "consult the snapshot that many positions earlier". -/
structure ResourceOverride where
  url : String
  sha1 : Option String
  ref : Option Nat
deriving DecidableEq, Repr

/-- Modelled from the spec (§3): one frame snapshot. -/
structure FrameSnapshot where
  snapshotName : String
  frameUrl : String
  timestamp : ℚ
  doctype : Option String
  viewport : Option (Nat × Nat)
  root : NodeT
  overrides : List ResourceOverride
deriving DecidableEq, Repr

mutual
/-- Modelled from the spec (§4.F.2): the post-order node list — recursively
visit children, then push the node itself. -/
def postOrder : NodeT → List NodeT
  | NodeT.text s => [NodeT.text s]
  | NodeT.ref k j => [NodeT.ref k j]
  | NodeT.elem n a ch => postOrderList ch ++ [NodeT.elem n a ch]
/-- Post-order traversal of a node list. -/
def postOrderList : NodeList → List NodeT
  | NodeList.nil => []
  | NodeList.cons t ts => postOrder t ++ postOrderList ts
end

/-- Root of the snapshot at index `i` (a dummy text node when out of range). -/
def rootAt (S : List FrameSnapshot) (i : Nat) : NodeT :=
  match S.get? i with
  | some snap => snap.root
  | none => NodeT.text ""

/-- Override list of the snapshot at index `m` (empty when out of range). -/
def overridesAt (S : List FrameSnapshot) (m : Nat) : List ResourceOverride :=
  match S.get? m with
  | some snap => snap.overrides
  | none => []

/-- Frame URL of the snapshot at index `i` (empty when out of range). -/
def frameUrlAt (S : List FrameSnapshot) (i : Nat) : String :=
  match S.get? i with
  | some snap => snap.frameUrl
  | none => ""

/-- The node a subtree reference `[k, j]` in snapshot `i` resolves to: index
`j` of the post-order node list of snapshot `i − k`. -/
def refTarget (S : List FrameSnapshot) (i k j : Nat) : Option NodeT :=
  if k ≤ i then
    match S.get? (i - k) with
    | some snap => (postOrder snap.root).get? j
    | none => none
  else none

-- ===========================================================================
-- Override map construction (§4.F.1) and URL rewriting
-- ===========================================================================

/-- First override matching a URL in an override list. -/
def findOverride (url : String) (l : List ResourceOverride) : Option ResourceOverride :=
  l.find? (fun o => o.url = url)

/-- Modelled from the spec (§4.F.1): process one override `o` of snapshot `i`
into the URL→hash map `M`: a direct `sha1` assigns `M[o.url] ← o.sha1`; a
`ref` consults snapshot `i − o.ref` (if in range) and uses the `sha1` of its
override matching `o.url`, if present. -/
def applyOverride (S : List FrameSnapshot) (i : Nat) (M : List (String × String))
    (o : ResourceOverride) : List (String × String) :=
  match o.sha1 with
  | some h => setAssoc M o.url h
  | none =>
    match o.ref with
    | some r =>
      if r ≤ i then
        match findOverride o.url (overridesAt S (i - r)) with
        | some o2 =>
          match o2.sha1 with
          | some h => setAssoc M o.url h
          | none => M
        | none => M
      else M
    | none => M

/-- Modelled from the spec (§4.F.1): fold all overrides of snapshot `i`
into a URL→hash map. -/
def buildOverrideMap (S : List FrameSnapshot) (i : Nat) : List (String × String) :=
  (overridesAt S i).foldl (applyOverride S i) []

/-- The URL-rewriting context of one render: override map `M`, the
network-derived URL→hash map, the external URL resolver and the frame URL. -/
structure UrlCtx where
  overrideMap : List (String × String)
  networkMap : List (String × String)
  resolveUrl : String → String → String
  frameUrl : String

/-- Relative path of an extracted resource, as emitted inside snapshots. -/
def resPath (h : String) : String := "../resources/" ++ h

/-- Modelled from the spec (§4.F.1): data/blob/javascript URLs are never
rewritten. -/
def hasForbiddenScheme (url : String) : Bool :=
  strStartsWith url "data:" || strStartsWith url "blob:" || strStartsWith url "javascript:"

/-- Modelled from the spec (§4.F.1): rewriting a URL during serialization.
Lookup order `M[url]` → `M[resolve(url, frameUrl)]` → `networkMap[url]` →
`networkMap[resolve(url, frameUrl)]`; the first hit supplies the hash, and
with no hit the URL is emitted unchanged. -/
def rewriteURL (u : UrlCtx) (url : String) : String :=
  if hasForbiddenScheme url then url
  else
    match lookupAssoc u.overrideMap url with
    | some h => resPath h
    | none =>
      match lookupAssoc u.overrideMap (u.resolveUrl url u.frameUrl) with
      | some h => resPath h
      | none =>
        match lookupAssoc u.networkMap url with
        | some h => resPath h
        | none =>
          match lookupAssoc u.networkMap (u.resolveUrl url u.frameUrl) with
          | some h => resPath h
          | none => url

-- ===========================================================================
-- CSS url(...) rewriting and srcset rewriting (§4.F.4, §4.F.3)
-- ===========================================================================

/-- Split a character list at the first occurrence of `stop`, dropping the
separator; the whole list and an empty remainder when absent. -/
def takeUntilChar (stop : Char) : List Char → List Char × List Char
  | [] => ([], [])
  | c :: rest =>
    if c = stop then ([], rest)
    else
      match takeUntilChar stop rest with
      | (pre, post) => (c :: pre, post)

/-- Emitted form of one rewritten CSS URL: always single-quoted. -/
def cssUrlOut (rewritten : String) : List Char :=
  ('u' :: 'r' :: 'l' :: '(' :: aposChar :: rewritten.data) ++ [aposChar, ')']

/-- Modelled from the spec (§4.F.4): scan for `url(<optional quote><body>
<same quote>)` and replace each body with the rewritten URL (fuelled by the
input length; each step consumes at least one character). -/
def cssRwChars (rw : String → String) : Nat → List Char → List Char
  | 0, cs => cs
  | fuel + 1, 'u' :: 'r' :: 'l' :: '(' :: rest =>
    (match rest with
     | q :: rest2 =>
       if q = aposChar ∨ q = quoteChar then
         match takeUntilChar q rest2 with
         | (body, afterQ) =>
           match takeUntilChar ')' afterQ with
           | (_, afterParen) => cssUrlOut (rw (String.mk body)) ++ cssRwChars rw fuel afterParen
       else
         match takeUntilChar ')' rest with
         | (body, afterParen) => cssUrlOut (rw (String.mk body)) ++ cssRwChars rw fuel afterParen
     | [] => ['u', 'r', 'l', '('])
  | fuel + 1, c :: rest => c :: cssRwChars rw fuel rest
  | _ + 1, [] => []

/-- Modelled from the spec (§4.F.4): rewrite every `url(...)` occurrence of a
CSS text (style element text or style attribute value). -/
def cssRewriteText (u : UrlCtx) (s : String) : String :=
  String.mk (cssRwChars (rewriteURL u) s.data.length s.data)

/-- Modelled from the spec (§4.F.3): rewrite one srcset entry — the URL
portion is rewritten, the descriptor is preserved. -/
def rewriteSrcsetEntry (u : UrlCtx) (entry : String) : String :=
  match entry.trim.splitOn " " with
  | [] => entry.trim
  | url :: rest =>
    (rewriteURL u url) ++
      ((rest.filter (fun d => d ≠ "")).foldl (fun acc d => acc ++ " " ++ d) "")

/-- Modelled from the spec (§4.F.3): rewrite a srcset attribute value as
comma-separated entries. -/
def rewriteSrcset (u : UrlCtx) (av : String) : String :=
  String.intercalate ", " ((av.splitOn ",").map (rewriteSrcsetEntry u))

-- ===========================================================================
-- HTML escaping and attribute emission (§4.F.3)
-- ===========================================================================

/-- HTML-escape one text character. -/
def escHtmlChar (c : Char) : String :=
  if c = '&' then "&amp;"
  else if c = '<' then "&lt;"
  else if c = '>' then "&gt;"
  else String.mk [c]

/-- HTML-escape text content. -/
def escapeHtml (s : String) : String :=
  String.join (s.data.map escHtmlChar)

/-- Escape one character of a double-quoted attribute value. -/
def escAttrChar (c : Char) : String :=
  if c = '&' then "&amp;"
  else if c = quoteChar then "&quot;"
  else if c = '<' then "&lt;"
  else if c = '>' then "&gt;"
  else String.mk [c]

/-- Escape a double-quoted attribute value. -/
def escapeAttr (s : String) : String :=
  String.join (s.data.map escAttrChar)

/-- The recording engine's internal attribute namespace. -/
def kSnapshotAttrNs : String := "__playwright"

/-- The preserved internal attribute: iframe source. -/
def kPlaywrightSrcAttribute : String := "__playwright_src__"

/-- Modelled from the spec (§6): the preserved internal attribute markers;
every other attribute in the same namespace is dropped. -/
def kPreservedPlaywrightAttributes : List String :=
  [kPlaywrightSrcAttribute, "__playwright_scroll_top_", "__playwright_scroll_left_",
   "__playwright_value_", "__playwright_checked_", "__playwright_selected_",
   "__playwright_popover_open_", "__playwright_dialog_open_",
   "__playwright_shadow_root_", "__playwright_custom_elements__",
   "__playwright_style_sheet_"]

/-- Modelled from the spec (§4.F.3): the self-closing tag set. -/
def kVoidElements : List String :=
  ["AREA", "BASE", "BR", "COL", "COMMAND", "EMBED", "HR", "IMG", "INPUT",
   "KEYGEN", "LINK", "MENUITEM", "META", "PARAM", "SOURCE", "TRACK", "WBR"]

/-- One emitted attribute: ` name="escaped value"`. -/
def attrText (n v : String) : String :=
  " " ++ n ++ "=" ++ String.mk [quoteChar] ++ escapeAttr v ++ String.mk [quoteChar]

/-- Modelled from the spec (§4.F.3): emit one attribute of an element, or
drop it.  Internal attributes outside the preserved set are dropped; on
IFRAME/FRAME the preserved `__playwright_src__` is emitted as `src` with its
value URL-rewritten; `href` on LINK, `src` on SCRIPT/IMG and on anything but
A/LINK, `srcset` and `style` values are rewritten per the spec. -/
def renderAttrPair (u : UrlCtx) (elemName : String) (a : String × String) : Option String :=
  if strStartsWith a.fst kSnapshotAttrNs ∧ ¬ kPreservedPlaywrightAttributes.contains a.fst then
    none
  else if (elemName = "IFRAME" ∨ elemName = "FRAME") ∧ a.fst = kPlaywrightSrcAttribute then
    some (attrText "src" (rewriteURL u a.snd))
  else if elemName = "LINK" ∧ a.fst = "href" then
    some (attrText a.fst (rewriteURL u a.snd))
  else if (elemName = "SCRIPT" ∨ elemName = "IMG") ∧ a.fst = "src" then
    some (attrText a.fst (rewriteURL u a.snd))
  else if ¬ elemName = "A" ∧ ¬ elemName = "LINK" ∧ a.fst = "src" then
    some (attrText a.fst (rewriteURL u a.snd))
  else if a.fst = "srcset" then
    some (attrText a.fst (rewriteSrcset u a.snd))
  else if a.fst = "style" then
    some (attrText a.fst (cssRewriteText u a.snd))
  else
    some (attrText a.fst a.snd)

/-- All emitted attributes of an element, concatenated. -/
def attrsString (u : UrlCtx) (elemName : String) (attrs : List (String × String)) : String :=
  String.join (attrs.filterMap (renderAttrPair u elemName))

-- ===========================================================================
-- Serialization (§4.F.2 / §4.F.3)
-- ===========================================================================

/-- Context of one snapshot render: the frame's snapshot list, the current
index and the URL-rewriting context. -/
structure RenderCtx where
  snapshots : List FrameSnapshot
  index : Nat
  urls : UrlCtx

mutual
/-- Modelled from the spec (§4.F.2/§4.F.3): serialize one node.  Text is
HTML-escaped (CSS-rewritten first inside STYLE); a subtree reference is
resolved against the post-order list of snapshot `index − snapshotsAgo` and
spliced inline, emitting nothing when out of range; BASE elements are
dropped; NOSCRIPT is renamed to X-NOSCRIPT; void elements get no closing
tag.  The fuel (decremented on every recursion step) bounds the traversal
depth, per the spec's design note on bounding chain recursion; exhaustion is
a render failure (`none`). -/
def serNode (ctx : RenderCtx) : Nat → Bool → NodeT → Option String
  | 0, _, _ => none
  | _ + 1, inStyle, NodeT.text s =>
    some (escapeHtml (if inStyle then cssRewriteText ctx.urls s else s))
  | fuel + 1, inStyle, NodeT.ref k j =>
    (match refTarget ctx.snapshots ctx.index k j with
     | some n => serNode ctx fuel inStyle n
     | none => some "")
  | fuel + 1, _, NodeT.elem name attrs children =>
    if name = "BASE" then some ""
    else
      (serList ctx fuel (name = "STYLE") children).map (fun body =>
        let emitName := strToLower (if name = "NOSCRIPT" then "X-NOSCRIPT" else name)
        "<" ++ emitName ++ attrsString ctx.urls name attrs ++ ">" ++ body ++
          (if kVoidElements.contains name then "" else "</" ++ emitName ++ ">"))
/-- Serialize a list of sibling nodes in order. -/
def serList (ctx : RenderCtx) : Nat → Bool → NodeList → Option String
  | 0, _, _ => none
  | _ + 1, _, NodeList.nil => some ""
  | fuel + 1, inStyle, NodeList.cons t ts => do
    let s1 ← serNode ctx fuel inStyle t
    let rest ← serList ctx fuel inStyle ts
    pure (s1 ++ rest)
end

/-- The render context of snapshot `i`: override map per §4.F.1, the
caller's network map and URL resolver, and the snapshot's frame URL. -/
def mkRenderCtx (S : List FrameSnapshot) (i : Nat) (net : List (String × String))
    (resolve : String → String → String) : RenderCtx :=
  ⟨S, i, ⟨buildOverrideMap S i, net, resolve, frameUrlAt S i⟩⟩

/-- Modelled from the spec (§4.F.5): metadata comment of a rendered
snapshot. -/
def snapshotComment (snap : FrameSnapshot) : String :=
  "<!-- Playwright Snapshot: " ++ snap.snapshotName ++ " URL: " ++ snap.frameUrl ++
    " Timestamp: " ++ toString snap.timestamp ++
    (match snap.viewport with
     | some wh => " Viewport: " ++ toString wh.fst ++ "x" ++ toString wh.snd
     | none => "") ++ " -->"

/-- Modelled from the spec (§4.F.5): the fixed restoration script appended to
every rendered document (a constant text asset whose body is opaque to this
development). -/
def kRestorationScript : String :=
  "<script>/* Playwright snapshot restoration runtime */</script>"

/-- Modelled from the spec (§4.F.5): the full document — doctype line,
metadata comment, serialized tree, restoration script — at a given traversal
depth bound. -/
def renderDocF (S : List FrameSnapshot) (i : Nat) (net : List (String × String))
    (resolve : String → String → String) (fuel : Nat) : Option String :=
  (S.get? i).bind (fun snap =>
    (serNode (mkRenderCtx S i net resolve) fuel false snap.root).map (fun body =>
      "<!DOCTYPE " ++ snap.doctype.getD "html" ++ ">\n" ++ snapshotComment snap ++
        "\n" ++ body ++ kRestorationScript))

/-- The renderer produces `out` for snapshot `i`: some traversal depth
suffices to complete the render with that output. -/
def RendersTo (S : List FrameSnapshot) (i : Nat) (net : List (String × String))
    (resolve : String → String → String) (out : String) : Prop :=
  ∃ fuel, renderDocF S i net resolve fuel = some out

-- ===========================================================================
-- Tree surgery used to state the subtree-reference claim
-- ===========================================================================

mutual
/-- Node at a child-index path inside a tree. -/
def nodeAtPath : NodeT → List Nat → Option NodeT
  | t, [] => some t
  | NodeT.elem _ _ ch, c :: p => nodeAtPathList ch c p
  | _, _ :: _ => none
/-- Node at a child-index path starting inside a child list. -/
def nodeAtPathList : NodeList → Nat → List Nat → Option NodeT
  | NodeList.nil, _, _ => none
  | NodeList.cons t _, 0, p => nodeAtPath t p
  | NodeList.cons _ ts, c + 1, p => nodeAtPathList ts c p
end

mutual
/-- Replace the node at a child-index path verbatim. -/
def replaceAtPath : NodeT → List Nat → NodeT → NodeT
  | _, [], r => r
  | NodeT.elem n a ch, c :: p, r => NodeT.elem n a (replaceAtPathList ch c p r)
  | t, _ :: _, _ => t
/-- Replace the node at a child-index path inside a child list. -/
def replaceAtPathList : NodeList → Nat → List Nat → NodeT → NodeList
  | NodeList.nil, _, _, _ => NodeList.nil
  | NodeList.cons t ts, 0, p, r => NodeList.cons (replaceAtPath t p r) ts
  | NodeList.cons t ts, c + 1, p, r => NodeList.cons t (replaceAtPathList ts c p r)
end

/-- The snapshot list with snapshot `i`'s root replaced (metadata and
overrides unchanged). -/
def setRootAt (S : List FrameSnapshot) (i : Nat) (r : NodeT) : List FrameSnapshot :=
  match S.get? i with
  | some snap =>
    S.set i ⟨snap.snapshotName, snap.frameUrl, snap.timestamp, snap.doctype,
      snap.viewport, r, snap.overrides⟩
  | none => S

mutual
/-- No subtree reference with `snapshotsAgo = 0` occurs in the tree. -/
def noZeroRef : NodeT → Bool
  | NodeT.text _ => true
  | NodeT.ref k _ => decide (0 < k)
  | NodeT.elem _ _ ch => noZeroRefList ch
/-- No zero-offset subtree reference occurs in the list. -/
def noZeroRefList : NodeList → Bool
  | NodeList.nil => true
  | NodeList.cons t ts => noZeroRef t && noZeroRefList ts
end

/-- No zero-offset subtree reference occurs in any snapshot of the list. -/
def allNoZeroRef (S : List FrameSnapshot) : Bool :=
  S.all (fun snap => noZeroRef snap.root)

mutual
/-- The tree with every BASE element removed. -/
def stripBase : NodeT → NodeT
  | NodeT.text s => NodeT.text s
  | NodeT.ref k j => NodeT.ref k j
  | NodeT.elem n a ch => NodeT.elem n a (stripBaseList ch)
/-- A child list with every BASE element removed. -/
def stripBaseList : NodeList → NodeList
  | NodeList.nil => NodeList.nil
  | NodeList.cons t ts =>
    match t with
    | NodeT.elem n a ch =>
      if n = "BASE" then stripBaseList ts
      else NodeList.cons (NodeT.elem n a (stripBaseList ch)) (stripBaseList ts)
    | _ => NodeList.cons t (stripBaseList ts)
end

-- ===========================================================================
-- Concrete inputs used by witnesses and counterexamples
-- ===========================================================================

/-- Witness tool list for the tool-filtering claim. -/
def wTools : List McpTool := [⟨"core", ⟨"alpha"⟩⟩, ⟨"core", ⟨"beta"⟩⟩]

/-- Witness configuration: `beta` is both allowed and denied. -/
def wConfig : FullConfig := ⟨none, some ⟨some ["alpha", "beta"], some ["beta"]⟩⟩

/-- Witness tool kept by the filter. -/
def wTool : McpTool := ⟨"core", ⟨"alpha"⟩⟩

/-- Parameters with an empty (present but falsy) `text`. -/
def c8BadParams : NavWaitParams := ⟨"https://example.test/", none, some "", none⟩

/-- Parameters that pass the guard with `text` alone. -/
def c8OkParams : NavWaitParams := ⟨"https://example.test/", none, some "ready", none⟩

/-- Effect list of `c8OkParams`. -/
def c8OkList : List NavEffect :=
  [NavEffect.ensureTab, NavEffect.navigate "https://example.test/",
   NavEffect.codeGoto "https://example.test/",
   NavEffect.codeWaitForVisible "ready", NavEffect.waitForVisible "ready",
   NavEffect.addResult "https://example.test/" (WaitedFor.forText "ready"),
   NavEffect.setIncludeSnapshot]

/-- Parameters supplying `time = 0` together with a `text`. -/
def c9ZeroTimeParams : NavWaitParams := ⟨"https://example.test/", some 0, some "x", none⟩

/-- Effect list of `c9ZeroTimeParams`: no delay and no setTimeout snippet. -/
def c9EffectList : List NavEffect :=
  [NavEffect.ensureTab, NavEffect.navigate "https://example.test/",
   NavEffect.codeGoto "https://example.test/",
   NavEffect.codeWaitForVisible "x", NavEffect.waitForVisible "x",
   NavEffect.addResult "https://example.test/" (WaitedFor.forText "x"),
   NavEffect.setIncludeSnapshot]

/-- Parameters supplying a nonzero `time`. -/
def c9TimeParams : NavWaitParams := ⟨"https://example.test/", some 35, none, some "gone"⟩

/-- Witness trace model with one action keyed `call@1`. -/
def c6Model : TraceModel :=
  ⟨[("call@1", ⟨"call@1", "click", "Frame", 1, none, none, none, none, none, []⟩)]⟩

/-- A second `before` event reusing `call@1`. -/
def c6Before : BeforeEvent := ⟨"call@1", "fill", "Frame", 2, some "before@call@1"⟩

/-- An `after` event whose `callId` is unknown to `c6Model`. -/
def c6After : AfterEvent := ⟨"call@9", 3, some "boom", none, none, []⟩

-- ===========================================================================
-- Concrete renderer inputs used by witnesses and counterexamples
-- ===========================================================================

/-- Earlier snapshot holding the direct override `{u, sha1 h}`. -/
def c3SnapEarlier : FrameSnapshot :=
  ⟨"before@call@1", "http://site.test/", 0, none, none, NodeT.text "",
    [⟨"u", some "h", none⟩]⟩

/-- Counterexample snapshot: `{u, ref 1}` followed by a second override
`{u, sha1 h2}` for the same URL. -/
def c3SnapCex : FrameSnapshot :=
  ⟨"after@call@1", "http://site.test/", 1, none, none, NodeT.text "",
    [⟨"u", none, some 1⟩, ⟨"u", some "h2", none⟩]⟩

/-- Counterexample snapshot list for the override-chain claim. -/
def c3CexList : List FrameSnapshot := [c3SnapEarlier, c3SnapCex]

/-- Witness snapshot whose only override for `u` is `{u, ref 1}`. -/
def c3SnapOk : FrameSnapshot :=
  ⟨"after@call@1", "http://site.test/", 1, none, none, NodeT.text "",
    [⟨"u", none, some 1⟩]⟩

/-- Witness snapshot list for the override-chain claim. -/
def c3OkList : List FrameSnapshot := [c3SnapEarlier, c3SnapOk]

/-- A render context over no snapshots and empty maps. -/
def c4Ctx : RenderCtx := ⟨[], 0, ⟨[], [], fun a _ => a, ""⟩⟩

/-- A tree holding a BASE element next to a text node. -/
def c4Tree : NodeT :=
  NodeT.elem "DIV" []
    (NodeList.cons (NodeT.elem "BASE" [("href", "http://evil.test/")] NodeList.nil)
      (NodeList.cons (NodeT.text "hi") NodeList.nil))

/-- Witness URL contexts for the lookup-order claim. -/
def c2CtxOverride : UrlCtx :=
  ⟨[("u", "h1")], [("u", "h3")], fun a _ => a, "http://site.test/"⟩

/-- URL context where only the resolved URL hits the override map. -/
def c2CtxResolved : UrlCtx :=
  ⟨[("http://site.test/u", "h2")], [], fun a b => b ++ a, "http://site.test/"⟩

/-- URL context where only the network map (raw URL) hits. -/
def c2CtxNet : UrlCtx :=
  ⟨[], [("u", "h3")], fun a _ => a, "http://site.test/"⟩

/-- URL context where nothing hits. -/
def c2CtxMiss : UrlCtx :=
  ⟨[], [], fun a _ => a, "http://site.test/"⟩

/-- Fixed resolver used by the renderer witnesses (returns the raw URL). -/
def cexResolve : String → String → String := fun a _ => a

/-- Counterexample root: two zero-offset references around an element; the
reference at child path `[0]` points at post-order index 2 (the `E`
element). -/
def c1CexRoot : NodeT :=
  NodeT.elem "D" []
    (nodesOf [NodeT.ref 0 2, NodeT.elem "E" [] (nodesOf [NodeT.text "A"]), NodeT.ref 0 2])

/-- The single-snapshot list of the counterexample. -/
def c1CexList : List FrameSnapshot :=
  [⟨"after@call@1", "http://site.test/", 0, none, none, c1CexRoot, []⟩]

/-- The node post-order index 2 of the counterexample snapshot resolves to. -/
def c1CexNode : NodeT := NodeT.elem "E" [] (nodesOf [NodeT.text "A"])

/-- The counterexample list with the reference at path `[0]` replaced
verbatim. -/
def c1CexSpliced : List FrameSnapshot :=
  setRootAt c1CexList 0 (replaceAtPath (rootAt c1CexList 0) [0] c1CexNode)

/-- Witness snapshots: the current root holds a backward reference `[1, 1]`
into the previous snapshot's post-order list. -/
def c1WitList : List FrameSnapshot :=
  [⟨"before@call@2", "http://site.test/", 0, none, none,
      NodeT.elem "SPAN" [] (nodesOf [NodeT.text "hi"]), []⟩,
   ⟨"after@call@2", "http://site.test/", 1, none, none,
      NodeT.elem "DIV" [] (nodesOf [NodeT.ref 1 1]), []⟩]

/-- The node reference `[1, 1]` of the witness resolves to. -/
def c1WitNode : NodeT := NodeT.elem "SPAN" [] (nodesOf [NodeT.text "hi"])

-- ===== Theorems =====

-- ===========================================================================
-- Shared association-list lemmas
-- ===========================================================================

theorem lookupAssoc_setAssoc_self {α : Type} (m : List (String × α)) (k : String) (v : α) :
    lookupAssoc (setAssoc m k v) k = some v := by
  induction m with
  | nil => simp [setAssoc, lookupAssoc]
  | cons p rest ih =>
    by_cases h : p.fst = k
    · simp [setAssoc, h, lookupAssoc]
    · simp [setAssoc, h, lookupAssoc, ih]

theorem lookupAssoc_setAssoc_other {α : Type} (m : List (String × α)) (k k2 : String)
    (v : α) (hne : k2 ≠ k) : lookupAssoc (setAssoc m k v) k2 = lookupAssoc m k2 := by
  induction m with
  | nil => simp [setAssoc, lookupAssoc, Ne.symm hne]
  | cons p rest ih =>
    by_cases h : p.fst = k
    · simp [setAssoc, h, lookupAssoc, Ne.symm hne]
    · simp only [setAssoc, if_neg h, lookupAssoc]
      by_cases h2 : p.fst = k2
      · simp [h2]
      · simp [h2, ih]

-- ===========================================================================
-- C5
-- ===========================================================================

/-- C5: the table-of-contents anchor function lowercases, deletes every
character outside word/whitespace/hyphen, then maps each space to a hyphen
without collapsing runs; on the quoted heading it produces exactly the
claimed slug (further equations are the remaining fixtures of the source
test plus a run-preservation example). -/
theorem c5_generateAnchor_slugs :
    generateAnchor "27. Press \x22Enter\x22 getByRole(\x27dialog\x27, \x7b name: \x27Find in diff\x27 \x7d).getByRole(\x27textbox\x27, \x7b name: \x27Search term\x27 \x7d)" =
      "27-press-enter-getbyroledialog--name-find-in-diff-getbyroletextbox--name-search-term-" ∧
    generateAnchor "1. Before Hooks" = "1-before-hooks" ∧
    generateAnchor "2. Navigate to \x22/test/repo/460\x22" = "2-navigate-to-testrepo460" ∧
    generateAnchor "28. Evaluate getByRole(\x27region\x27, \x7b name: \x27Original version\x27 \x7d).locator(\x27.cm-editor\x27).first()" =
      "28-evaluate-getbyroleregion--name-original-version-locatorcm-editorfirst" ∧
    generateAnchor "a  b" = "a--b" :=
  ⟨by decide, by decide, by decide, by decide, by decide⟩

-- ===========================================================================
-- C10
-- ===========================================================================

theorem mem_applyAllowList (config : FullConfig) (l : List McpTool) (t : McpTool)
    (h : t ∈ applyAllowList config l) : t ∈ l := by
  unfold applyAllowList at h
  split at h
  · split at h
    · split at h
      · exact (List.mem_filter.mp h).1
      · exact h
    · exact h
  · exact h

theorem mem_applyDenyList (config : FullConfig) (l : List McpTool) (t : McpTool)
    (h : t ∈ applyDenyList config l) :
    t ∈ l ∧ (∀ tc dl, config.tools = some tc → tc.denyList = some dl → dl ≠ [] →
      t.schema.name ∉ dl) := by
  unfold applyDenyList at h
  split at h
  · rename_i tc hc
    split at h
    · rename_i dl hd
      split at h
      · refine ⟨(List.mem_filter.mp h).1, ?_⟩
        intro tc2 dl2 htc2 hdl2 _
        rw [hc] at htc2
        cases htc2
        rw [hd] at hdl2
        cases hdl2
        have hb : t.schema.name ∉ dl := by simpa using (List.mem_filter.mp h).2
        exact hb
      · rename_i hlen
        refine ⟨h, ?_⟩
        intro tc2 dl2 htc2 hdl2 hne
        rw [hc] at htc2
        cases htc2
        rw [hd] at hdl2
        cases hdl2
        exfalso
        apply hne
        cases dl with
        | nil => rfl
        | cons a rest => exact absurd (by simp) hlen
    · rename_i hd
      refine ⟨h, ?_⟩
      intro tc2 dl2 htc2 hdl2
      rw [hc] at htc2
      cases htc2
      rw [hd] at hdl2
      cases hdl2
  · rename_i hc
    refine ⟨h, ?_⟩
    intro tc2 dl2 htc2
    rw [hc] at htc2
    cases htc2

theorem capabilityAllowed_spec (config : FullConfig) (t : McpTool)
    (h : capabilityAllowed config t = true) :
    strStartsWith t.capability "core" = true ∨
      ∃ caps, config.capabilities = some caps ∧ t.capability ∈ caps := by
  unfold capabilityAllowed at h
  rcases Bool.or_eq_true_iff.mp h with h1 | h2
  · exact Or.inl h1
  · split at h2
    · rename_i caps hcaps
      exact Or.inr ⟨caps, hcaps, by simpa using h2⟩
    · cases h2

/-- C10: every tool returned by `filteredTools` has a capability that starts
with `core` or is listed in `config.capabilities`, and its schema name is in
no non-empty deny list (deny wins even over an allow-listed name); an absent
or empty allow list imposes no restriction (the result is exactly the
capability filter followed by the deny filter). -/
theorem c10_filteredTools_spec :
    (∀ (tools : List McpTool) (config : FullConfig) (t : McpTool),
        t ∈ filteredTools tools config →
        (strStartsWith t.capability "core" = true ∨
          ∃ caps, config.capabilities = some caps ∧ t.capability ∈ caps) ∧
        (∀ tc dl, config.tools = some tc → tc.denyList = some dl → dl ≠ [] →
          t.schema.name ∉ dl)) ∧
    (∀ (tools : List McpTool) (config : FullConfig),
        (config.tools = none ∨ ∃ tc, config.tools = some tc ∧
          (tc.allowList = none ∨ tc.allowList = some [])) →
        filteredTools tools config =
          applyDenyList config (tools.filter (capabilityAllowed config))) := by
  constructor
  · intro tools config t h
    unfold filteredTools at h
    obtain ⟨h2, hdeny⟩ := mem_applyDenyList config _ t h
    have h3 := mem_applyAllowList config _ t h2
    have h4 := (List.mem_filter.mp h3).2
    exact ⟨capabilityAllowed_spec config t h4, hdeny⟩
  · intro tools config hal
    unfold filteredTools
    congr 1
    unfold applyAllowList
    rcases hal with hnone | ⟨tc, htc, hcase⟩
    · rw [hnone]
    · rw [htc]
      simp only []
      rcases hcase with h1 | h1 <;> rw [h1]
      simp

/-- C10 witness: a tool whose name sits in both allow and deny list is
removed, and the kept tool satisfies the capability and deny conditions. -/
theorem c10_witness :
    wTool ∈ filteredTools wTools wConfig ∧
    ((strStartsWith wTool.capability "core" = true ∨
        ∃ caps, wConfig.capabilities = some caps ∧ wTool.capability ∈ caps) ∧
      (∀ tc dl, wConfig.tools = some tc → tc.denyList = some dl → dl ≠ [] →
        wTool.schema.name ∉ dl)) :=
  ⟨by decide, c10_filteredTools_spec.1 wTools wConfig wTool (by decide)⟩

-- ===========================================================================
-- C8
-- ===========================================================================

/-- C8 counterexample: with `text` present but empty (and `time`, `textGone`
absent) the handler still throws, so "throws only when text and textGone are
absent" is false as stated. -/
theorem c8_counterexample :
    navigateThenWaitForHandle c8BadParams =
      Except.error "Either time, text or textGone must be provided" ∧
    c8BadParams.text ≠ none :=
  ⟨rfl, by simp [c8BadParams]⟩

/-- C8 (amended): the handler throws `Either time, text or textGone must be
provided` iff `text` and `textGone` are absent **or empty** and `time` is
absent or zero; and on every non-throwing run the first effect is the tab
acquisition — the guard precedes every effect, so a throwing call performs
no navigation or wait. -/
theorem c8_amended (p : NavWaitParams) :
    (navigateThenWaitForHandle p =
        Except.error "Either time, text or textGone must be provided" ↔
      ((p.text = none ∨ p.text = some "") ∧
        (p.textGone = none ∨ p.textGone = some "") ∧
        (p.time = none ∨ p.time = some 0))) ∧
    (∀ l, navigateThenWaitForHandle p = Except.ok l →
      l.head? = some NavEffect.ensureTab) := by
  obtain ⟨u, ti, te, tg⟩ := p
  constructor
  · unfold navigateThenWaitForHandle
    by_cases hguard : (jsFalsyOptStr te && jsFalsyOptStr tg && jsFalsyOptNum ti) = true
    · rw [if_pos hguard]
      simp only [Bool.and_eq_true] at hguard
      obtain ⟨⟨h1, h2⟩, h3⟩ := hguard
      constructor
      · intro _
        refine ⟨?_, ?_, ?_⟩
        · cases te with
          | none => exact Or.inl rfl
          | some s => simp [jsFalsyOptStr] at h1; simp [h1]
        · cases tg with
          | none => exact Or.inl rfl
          | some s => simp [jsFalsyOptStr] at h2; simp [h2]
        · cases ti with
          | none => exact Or.inl rfl
          | some t => simp [jsFalsyOptNum] at h3; simp [h3]
      · intro _; rfl
    · rw [if_neg hguard]
      constructor
      · intro h; exact absurd h (by simp)
      · intro ⟨hte, htg, hti⟩
        apply absurd _ hguard
        have e1 : jsFalsyOptStr te = true := by
          rcases hte with h | h
          · rw [show te = none from h]; rfl
          · rw [show te = some "" from h]; rfl
        have e2 : jsFalsyOptStr tg = true := by
          rcases htg with h | h
          · rw [show tg = none from h]; rfl
          · rw [show tg = some "" from h]; rfl
        have e3 : jsFalsyOptNum ti = true := by
          rcases hti with h | h
          · rw [show ti = none from h]; rfl
          · rw [show ti = some 0 from h]; simp [jsFalsyOptNum]
        rw [e1, e2, e3]
        rfl
  · intro l h
    unfold navigateThenWaitForHandle at h
    by_cases hguard : (jsFalsyOptStr te && jsFalsyOptStr tg && jsFalsyOptNum ti) = true
    · rw [if_pos hguard] at h
      exact absurd h (by simp)
    · rw [if_neg hguard] at h
      cases h
      rfl

/-- C8 witness: the amended theorem applied to a throwing call and a
successful call. -/
theorem c8_witness :
    (navigateThenWaitForHandle c8OkParams = Except.ok c8OkList) ∧
    c8OkList.head? = some NavEffect.ensureTab ∧
    (navigateThenWaitForHandle ⟨"https://example.test/", none, none, none⟩ =
      Except.error "Either time, text or textGone must be provided") :=
  ⟨rfl, (c8_amended c8OkParams).2 c8OkList rfl,
    ((c8_amended ⟨"https://example.test/", none, none, none⟩).1).mpr
      ⟨Or.inl rfl, Or.inl rfl, Or.inl rfl⟩⟩

-- ===========================================================================
-- C9
-- ===========================================================================

/-- C9 counterexample: a call supplying `time = 0` (with a `text` so the
guard passes) performs no delay at all and records no setTimeout snippet, so
the claim quantified over every supplied time fails at `t = 0`. -/
theorem c9_counterexample :
    navigateThenWaitForHandle c9ZeroTimeParams = Except.ok c9EffectList ∧
    (∀ ms : ℚ, NavEffect.delayMs ms ∉ c9EffectList) ∧
    (∀ t2 : ℚ, NavEffect.codeSetTimeoutSeconds t2 ∉ c9EffectList) := by
  refine ⟨rfl, ?_, ?_⟩ <;> intro x <;> simp [c9EffectList]

/-- C9 (amended): for every call supplying a **nonzero** time `t`, the
handler succeeds, the recorded snippet states the uncapped `t * 1000`
milliseconds, and the delay actually performed is `min 30000 (t * 1000)`
milliseconds — capped at 30 seconds — and is the only delay performed. -/
theorem c9_amended (p : NavWaitParams) (t : ℚ) (ht : p.time = some t) (hz : t ≠ 0) :
    ∃ l, navigateThenWaitForHandle p = Except.ok l ∧
      NavEffect.codeSetTimeoutSeconds t ∈ l ∧
      NavEffect.delayMs (min 30000 (t * 1000)) ∈ l ∧
      (∀ ms, NavEffect.delayMs ms ∈ l → ms = min 30000 (t * 1000)) := by
  have hguard :
      (jsFalsyOptStr p.text && jsFalsyOptStr p.textGone && jsFalsyOptNum p.time) = false := by
    simp [ht, jsFalsyOptNum, hz]
  refine ⟨navOkEffects p, ?_, ?_, ?_, ?_⟩
  · simp [navigateThenWaitForHandle, hguard]
  · simp only [navOkEffects, ht, if_neg hz]
    simp
  · simp only [navOkEffects, ht, if_neg hz]
    simp
  · intro ms hms
    rcases hp1 : p.text with _ | s1 <;> rcases hp2 : p.textGone with _ | s2 <;>
      simp only [navOkEffects, ht, hp1, hp2, if_neg hz] at hms <;>
      (try split_ifs at hms) <;> simp_all

/-- C9 witness: the amended theorem at `time = 35` (capped: the awaited
delay is 30000 ms while the snippet states 35000 ms). -/
theorem c9_witness :
    c9TimeParams.time = some 35 ∧ (35 : ℚ) ≠ 0 ∧
    (∃ l, navigateThenWaitForHandle c9TimeParams = Except.ok l ∧
      NavEffect.codeSetTimeoutSeconds 35 ∈ l ∧
      NavEffect.delayMs (min 30000 (35 * 1000)) ∈ l ∧
      (∀ ms, NavEffect.delayMs ms ∈ l → ms = min 30000 (35 * 1000))) :=
  ⟨rfl, by norm_num, c9_amended c9TimeParams 35 rfl (by norm_num)⟩

-- ===========================================================================
-- C6
-- ===========================================================================

/-- C6: a `before` event whose `callId` matches an already-created action
overwrites that action, and an `after` event with an unknown `callId` is
dropped, leaving the model unchanged. -/
theorem c6_before_overwrites_after_drops :
    (∀ (m : TraceModel) (e : BeforeEvent) (a0 : ActionEntry),
        lookupAssoc m.actions e.callId = some a0 →
        lookupAssoc (dispatchBefore m e).actions e.callId = some (actionOfBefore e) ∧
        (∀ c, c ≠ e.callId →
          lookupAssoc (dispatchBefore m e).actions c = lookupAssoc m.actions c)) ∧
    (∀ (m : TraceModel) (e : AfterEvent),
        lookupAssoc m.actions e.callId = none → dispatchAfter m e = m) := by
  constructor
  · intro m e a0 _
    exact ⟨lookupAssoc_setAssoc_self m.actions e.callId (actionOfBefore e),
      fun c hc => lookupAssoc_setAssoc_other m.actions e.callId c (actionOfBefore e) hc⟩
  · intro m e h
    unfold dispatchAfter
    rw [h]

/-- C6 witness: overwriting an existing `call@1` and dropping an `after`
with unknown `call@9` on a concrete model. -/
theorem c6_witness :
    lookupAssoc c6Model.actions c6Before.callId =
      some ⟨"call@1", "click", "Frame", 1, none, none, none, none, none, []⟩ ∧
    lookupAssoc (dispatchBefore c6Model c6Before).actions c6Before.callId =
      some (actionOfBefore c6Before) ∧
    lookupAssoc c6Model.actions c6After.callId = none ∧
    dispatchAfter c6Model c6After = c6Model :=
  ⟨rfl,
    ((c6_before_overwrites_after_drops.1 c6Model c6Before
      ⟨"call@1", "click", "Frame", 1, none, none, none, none, none, []⟩ rfl)).1,
    rfl,
    c6_before_overwrites_after_drops.2 c6Model c6After rfl⟩

-- ===========================================================================
-- C7
-- ===========================================================================

theorem splitSlash_no_slash (l : List Char) (h : ∀ c ∈ l, ¬ c = '/') :
    splitSlash l = [l] := by
  induction l with
  | nil => rfl
  | cons c rest ih =>
    have hr := ih (fun c2 hc2 => h c2 (List.mem_cons_of_mem c hc2))
    simp only [splitSlash, hr]
    rw [if_neg (h c (List.mem_cons_self c rest))]

theorem splitSlash_attachments_dir (l : List Char) (h : splitSlash l = [l]) :
    splitSlash ("assets/attachments/".data ++ l) =
      ["assets".data, "attachments".data, l] := by
  have e : "assets/attachments/".data =
      'a' :: 's' :: 's' :: 'e' :: 't' :: 's' :: '/' :: 'a' :: 't' :: 't' :: 'a' ::
      'c' :: 'h' :: 'm' :: 'e' :: 'n' :: 't' :: 's' :: '/' :: [] := rfl
  rw [e]
  simp only [List.cons_append, List.nil_append]
  simp [splitSlash, h]

theorem sanitizeChar_not_bad (c : Char) :
    kBadFilenameChars.contains (sanitizeChar c) = false := by
  unfold sanitizeChar
  by_cases h : kBadFilenameChars.contains c = true
  · rw [if_pos (by simpa using h)]
    decide
  · rw [if_neg (by simpa using h)]
    simpa using h

/-- C7: sanitization maps every occurrence of the nine forbidden characters
to an underscore, the result contains no path separator (neither `/` nor
`\`), and the attachment's output path therefore splits into exactly the
segments `assets`, `attachments`, sanitized name — the file cannot escape
the attachments directory. -/
theorem c7_sanitize_spec (s : String) :
    (∀ c ∈ (sanitizeFilename s).data, ¬ c = '/' ∧ ¬ c = backslashChar ∧
      kBadFilenameChars.contains c = false) ∧
    (sanitizeFilename s).data.length = s.data.length ∧
    (∀ i c, s.data.get? i = some c →
      (sanitizeFilename s).data.get? i =
        some (if kBadFilenameChars.contains c then '_' else c)) ∧
    splitSlash (attachmentPath s).data =
      ["assets".data, "attachments".data, (sanitizeFilename s).data] := by
  have hdata : (sanitizeFilename s).data = s.data.map sanitizeChar := rfl
  have hnotbad : ∀ c ∈ (sanitizeFilename s).data, kBadFilenameChars.contains c = false := by
    intro c hc
    rw [hdata] at hc
    obtain ⟨c0, _, hc0⟩ := List.mem_map.mp hc
    rw [← hc0]
    exact sanitizeChar_not_bad c0
  refine ⟨?_, ?_, ?_, ?_⟩
  · intro c hc
    have hb := hnotbad c hc
    refine ⟨?_, ?_, hb⟩
    · intro he; rw [he] at hb; exact absurd hb (by decide)
    · intro he; rw [he] at hb; exact absurd hb (by decide)
  · rw [hdata, List.length_map]
  · intro i c hc
    rw [hdata, List.get?_map, hc]
    rfl
  · have hnoslash : ∀ c ∈ (sanitizeFilename s).data, ¬ c = '/' := by
      intro c hc he
      have hb := hnotbad c hc
      rw [he] at hb
      exact absurd hb (by decide)
    have hsplit := splitSlash_no_slash (sanitizeFilename s).data hnoslash
    have happ : (attachmentPath s).data =
        "assets/attachments/".data ++ (sanitizeFilename s).data := by
      unfold attachmentPath
      exact String.data_append _ _
    rw [happ]
    exact splitSlash_attachments_dir (sanitizeFilename s).data hsplit

/-- C7 witness: the sanitization theorem applied to a traversal attempt. -/
theorem c7_witness :
    (∀ c ∈ (sanitizeFilename "../../etc/passwd").data, ¬ c = '/' ∧ ¬ c = backslashChar ∧
      kBadFilenameChars.contains c = false) ∧
    sanitizeFilename "../../etc/passwd" = ".._.._etc_passwd" ∧
    splitSlash (attachmentPath "../../etc/passwd").data =
      ["assets".data, "attachments".data, (sanitizeFilename "../../etc/passwd").data] :=
  ⟨(c7_sanitize_spec "../../etc/passwd").1, by decide,
    (c7_sanitize_spec "../../etc/passwd").2.2.2⟩

-- ===========================================================================
-- C2
-- ===========================================================================

/-- C2: during serialization every URL rewrite consults, in order, the
override map at the raw URL, the override map at the frame-resolved URL, the
network map at the raw URL, then the network map at the resolved URL; the
first hit supplies the hash (emitted as `../resources/<hash>`), no hit
leaves the URL unchanged, and data/blob/javascript URLs are never rewritten
(final conjunct: the serializer's LINK `href` emission goes through exactly
this rewriter). -/
theorem c2_rewrite_lookup_order (u : UrlCtx) (url : String) :
    (hasForbiddenScheme url = true → rewriteURL u url = url) ∧
    (hasForbiddenScheme url = false →
      (∀ h, lookupAssoc u.overrideMap url = some h → rewriteURL u url = resPath h) ∧
      (lookupAssoc u.overrideMap url = none →
        ∀ h, lookupAssoc u.overrideMap (u.resolveUrl url u.frameUrl) = some h →
          rewriteURL u url = resPath h) ∧
      (lookupAssoc u.overrideMap url = none →
        lookupAssoc u.overrideMap (u.resolveUrl url u.frameUrl) = none →
        ∀ h, lookupAssoc u.networkMap url = some h → rewriteURL u url = resPath h) ∧
      (lookupAssoc u.overrideMap url = none →
        lookupAssoc u.overrideMap (u.resolveUrl url u.frameUrl) = none →
        lookupAssoc u.networkMap url = none →
        ∀ h, lookupAssoc u.networkMap (u.resolveUrl url u.frameUrl) = some h →
          rewriteURL u url = resPath h) ∧
      (lookupAssoc u.overrideMap url = none →
        lookupAssoc u.overrideMap (u.resolveUrl url u.frameUrl) = none →
        lookupAssoc u.networkMap url = none →
        lookupAssoc u.networkMap (u.resolveUrl url u.frameUrl) = none →
        rewriteURL u url = url)) ∧
    renderAttrPair u "LINK" ("href", url) = some (attrText "href" (rewriteURL u url)) := by
  refine ⟨?_, ?_, ?_⟩
  · intro hbad
    unfold rewriteURL
    rw [if_pos hbad]
  · intro hgood
    refine ⟨?_, ?_, ?_, ?_, ?_⟩
    · intro h hh
      unfold rewriteURL
      rw [if_neg (by simp [hgood]), hh]
    · intro h1 h hh
      unfold rewriteURL
      rw [if_neg (by simp [hgood]), h1, hh]
    · intro h1 h2 h hh
      unfold rewriteURL
      rw [if_neg (by simp [hgood]), h1, h2, hh]
    · intro h1 h2 h3 h hh
      unfold rewriteURL
      rw [if_neg (by simp [hgood]), h1, h2, h3, hh]
    · intro h1 h2 h3 h4
      unfold rewriteURL
      rw [if_neg (by simp [hgood]), h1, h2, h3, h4]
  · unfold renderAttrPair
    rw [if_neg (by simp [strStartsWith, kSnapshotAttrNs])]
    rw [if_neg (by simp)]
    rw [if_pos ⟨rfl, rfl⟩]

/-- C2 witness: the four lookup levels and the forbidden scheme, each at a
concrete context. -/
theorem c2_witness :
    (hasForbiddenScheme "data:text/plain,x" = true ∧
      rewriteURL c2CtxOverride "data:text/plain,x" = "data:text/plain,x") ∧
    (lookupAssoc c2CtxOverride.overrideMap "u" = some "h1" ∧
      rewriteURL c2CtxOverride "u" = resPath "h1") ∧
    (rewriteURL c2CtxResolved "u" = resPath "h2") ∧
    (rewriteURL c2CtxNet "u" = resPath "h3") ∧
    (rewriteURL c2CtxMiss "u" = "u") ∧
    renderAttrPair c2CtxOverride "LINK" ("href", "u") =
      some (attrText "href" (rewriteURL c2CtxOverride "u")) :=
  ⟨⟨by decide, (c2_rewrite_lookup_order c2CtxOverride "data:text/plain,x").1 (by decide)⟩,
   ⟨by decide, ((c2_rewrite_lookup_order c2CtxOverride "u").2.1 (by decide)).1 "h1" (by decide)⟩,
   ((c2_rewrite_lookup_order c2CtxResolved "u").2.1 (by decide)).2.1 (by decide) "h2" (by decide),
   ((c2_rewrite_lookup_order c2CtxNet "u").2.1 (by decide)).2.2.1 (by decide) (by decide) "h3"
     (by decide),
   ((c2_rewrite_lookup_order c2CtxMiss "u").2.1 (by decide)).2.2.2.2 (by decide) (by decide)
     (by decide) (by decide),
   (c2_rewrite_lookup_order c2CtxOverride "u").2.2⟩

-- ===========================================================================
-- C3
-- ===========================================================================

theorem applyOverride_preserve (S : List FrameSnapshot) (i : Nat)
    (M : List (String × String)) (o : ResourceOverride) (U : String)
    (hne : o.url ≠ U) :
    lookupAssoc (applyOverride S i M o) U = lookupAssoc M U := by
  unfold applyOverride
  split
  · exact lookupAssoc_setAssoc_other M o.url U _ (Ne.symm hne)
  · split
    · split
      · split
        · split
          · exact lookupAssoc_setAssoc_other M o.url U _ (Ne.symm hne)
          · rfl
        · rfl
      · rfl
    · rfl

theorem foldl_applyOverride_preserve (S : List FrameSnapshot) (i : Nat)
    (l : List ResourceOverride) (U : String)
    (h : ∀ o ∈ l, o.url ≠ U) :
    ∀ M, lookupAssoc (l.foldl (applyOverride S i) M) U = lookupAssoc M U := by
  induction l with
  | nil => intro M; rfl
  | cons o rest ih =>
    intro M
    simp only [List.foldl_cons]
    rw [ih (fun o2 ho2 => h o2 (List.mem_cons_of_mem o ho2))]
    exact applyOverride_preserve S i M o U (h o (List.mem_cons_self o rest))

theorem foldl_applyOverride_only (S : List FrameSnapshot) (i : Nat)
    (l : List ResourceOverride) (U : String) (o : ResourceOverride) (v : String)
    (hfl : l.filter (fun o2 => o2.url = U) = [o])
    (happly : ∀ M, lookupAssoc (applyOverride S i M o) U = some v) :
    ∀ M, lookupAssoc (l.foldl (applyOverride S i) M) U = some v := by
  induction l with
  | nil => simp at hfl
  | cons o2 rest ih =>
    intro M
    by_cases h2 : o2.url = U
    · rw [List.filter_cons_of_pos (by simpa using h2)] at hfl
      have ho : o2 = o := (List.cons.injEq _ _ _ _).mp hfl |>.1
      have hrest : rest.filter (fun o3 => o3.url = U) = [] :=
        (List.cons.injEq _ _ _ _).mp hfl |>.2
      have hnone : ∀ o3 ∈ rest, o3.url ≠ U := by
        intro o3 ho3 he
        have : o3 ∈ rest.filter (fun o3 => o3.url = U) :=
          List.mem_filter.mpr ⟨ho3, by simpa using he⟩
        rw [hrest] at this
        simp at this
      simp only [List.foldl_cons]
      rw [foldl_applyOverride_preserve S i rest U hnone]
      rw [ho]
      exact happly M
    · rw [List.filter_cons_of_neg (by simpa using h2)] at hfl
      simp only [List.foldl_cons]
      exact ih hfl _

/-- C3 counterexample: snapshot 1 holds `{u, ref 1}` *and a later direct
override* `{u, sha1 h2}`; snapshot 0 holds `{u, sha1 h}`.  The claim's
premises hold, yet `u` resolves to `../resources/h2`, not `../resources/h`:
the claim as stated (mere membership of the two overrides) is false. -/
theorem c3_counterexample :
    (⟨"u", none, some 1⟩ : ResourceOverride) ∈ overridesAt c3CexList 1 ∧
    (⟨"u", some "h", none⟩ : ResourceOverride) ∈ overridesAt c3CexList (1 - 1) ∧
    rewriteURL ⟨buildOverrideMap c3CexList 1, [], fun a _ => a, frameUrlAt c3CexList 1⟩ "u" =
      resPath "h2" ∧
    resPath "h2" ≠ resPath "h" :=
  ⟨by decide, by decide, by decide, by decide⟩

/-- C3 (amended): if `{U, ref R}` is the **only** override for `U` in
snapshot `i`'s list, `R ≤ i`, the **first** override for `U` in snapshot
`i − R`'s list carries `sha1 H`, and `U` has no data/blob/javascript scheme,
then the override map of snapshot `i` sends `U` to `H` and every URL
rewrite of `U` during serialization yields `../resources/H`, for any network
map and URL resolver. -/
theorem c3_amended (S : List FrameSnapshot) (i R : Nat) (U H : String)
    (hfl : (overridesAt S i).filter (fun o2 => o2.url = U) = [⟨U, none, some R⟩])
    (hR : R ≤ i)
    (hfind : ∃ o2, findOverride U (overridesAt S (i - R)) = some o2 ∧ o2.sha1 = some H)
    (hscheme : hasForbiddenScheme U = false) :
    lookupAssoc (buildOverrideMap S i) U = some H ∧
    ∀ (net : List (String × String)) (resolve : String → String → String),
      rewriteURL ⟨buildOverrideMap S i, net, resolve, frameUrlAt S i⟩ U = resPath H := by
  obtain ⟨o2, hfo, hsha⟩ := hfind
  have happly : ∀ M, lookupAssoc (applyOverride S i M ⟨U, none, some R⟩) U = some H := by
    intro M
    unfold applyOverride
    simp only [hfo, hsha, if_pos hR]
    exact lookupAssoc_setAssoc_self M U H
  have hmap : lookupAssoc (buildOverrideMap S i) U = some H := by
    unfold buildOverrideMap
    exact foldl_applyOverride_only S i (overridesAt S i) U ⟨U, none, some R⟩ H hfl happly []
  refine ⟨hmap, ?_⟩
  intro net resolve
  unfold rewriteURL
  rw [if_neg (by simp [hscheme])]
  simp only
  rw [hmap]

/-- C3 witness: the amended theorem at the two-snapshot list whose only `u`
override in snapshot 1 is `{u, ref 1}`. -/
theorem c3_witness :
    (overridesAt c3OkList 1).filter (fun o2 => o2.url = "u") = [⟨"u", none, some 1⟩] ∧
    lookupAssoc (buildOverrideMap c3OkList 1) "u" = some "h" ∧
    rewriteURL ⟨buildOverrideMap c3OkList 1, [], fun a _ => a, frameUrlAt c3OkList 1⟩ "u" =
      resPath "h" := by
  have hres := c3_amended c3OkList 1 1 "u" "h" (by decide) (by decide)
    ⟨⟨"u", some "h", none⟩, by decide, rfl⟩ (by decide)
  exact ⟨by decide, hres.1, hres.2 [] (fun a _ => a)⟩

-- ===========================================================================
-- Serializer fuel monotonicity
-- ===========================================================================

mutual
theorem serNode_mono (ctx : RenderCtx) (f g : Nat) (st : Bool) (t : NodeT) (s : String)
    (hfg : f ≤ g) (h : serNode ctx f st t = some s) : serNode ctx g st t = some s := by
  cases f with
  | zero => simp [serNode] at h
  | succ f2 =>
    cases g with
    | zero => omega
    | succ g2 =>
      have hfg2 : f2 ≤ g2 := by omega
      cases t with
      | text str =>
        simp only [serNode] at h ⊢
        exact h
      | ref k j =>
        simp only [serNode] at h ⊢
        cases htar : refTarget ctx.snapshots ctx.index k j with
        | none => rw [htar] at h; exact h
        | some n => rw [htar] at h; exact serNode_mono ctx f2 g2 st n s hfg2 h
      | elem name attrs ch =>
        simp only [serNode] at h ⊢
        by_cases hb : name = "BASE"
        · rw [if_pos hb] at h ⊢; exact h
        · rw [if_neg hb] at h ⊢
          cases hl : serList ctx f2 (name = "STYLE") ch with
          | none => rw [hl] at h; simp at h
          | some body =>
            rw [hl] at h
            rw [serList_mono ctx f2 g2 (name = "STYLE") ch body hfg2 hl]
            exact h
theorem serList_mono (ctx : RenderCtx) (f g : Nat) (st : Bool) (ts : NodeList) (s : String)
    (hfg : f ≤ g) (h : serList ctx f st ts = some s) : serList ctx g st ts = some s := by
  cases f with
  | zero => simp [serList] at h
  | succ f2 =>
    cases g with
    | zero => omega
    | succ g2 =>
      have hfg2 : f2 ≤ g2 := by omega
      cases ts with
      | nil =>
        simp only [serList] at h ⊢
        exact h
      | cons t rest =>
        simp only [serList] at h ⊢
        cases h1 : serNode ctx f2 st t with
        | none => rw [h1] at h; simp at h
        | some s1 =>
          rw [h1] at h
          cases h2 : serList ctx f2 st rest with
          | none => rw [h2] at h; simp at h
          | some s2 =>
            rw [h2] at h
            rw [serNode_mono ctx f2 g2 st t s1 hfg2 h1,
              serList_mono ctx f2 g2 st rest s2 hfg2 h2]
            exact h
end

-- ===========================================================================
-- C4
-- ===========================================================================

mutual
theorem serNode_stripBase (f : Nat) (ctx : RenderCtx) (st : Bool) (t : NodeT) (s : String)
    (h : serNode ctx f st t = some s) : serNode ctx f st (stripBase t) = some s := by
  cases f with
  | zero => simp [serNode] at h
  | succ f2 =>
    cases t with
    | text str => exact h
    | ref k j => exact h
    | elem name attrs ch =>
      simp only [stripBase, serNode] at h ⊢
      by_cases hb : name = "BASE"
      · rw [if_pos hb] at h ⊢; exact h
      · rw [if_neg hb] at h ⊢
        cases hl : serList ctx f2 (name = "STYLE") ch with
        | none => rw [hl] at h; simp at h
        | some body =>
          rw [hl] at h
          rw [serList_stripBase f2 ctx (name = "STYLE") ch body hl]
          exact h
theorem serList_stripBase (f : Nat) (ctx : RenderCtx) (st : Bool) (ts : NodeList) (s : String)
    (h : serList ctx f st ts = some s) : serList ctx f st (stripBaseList ts) = some s := by
  cases f with
  | zero => simp [serList] at h
  | succ f2 =>
    cases ts with
    | nil => exact h
    | cons t rest =>
      simp only [serList] at h
      cases h1 : serNode ctx f2 st t with
      | none => rw [h1] at h; simp at h
      | some s1 =>
        rw [h1] at h
        cases h2 : serList ctx f2 st rest with
        | none => rw [h2] at h; simp at h
        | some s2 =>
          rw [h2] at h
          simp only [Option.some_bind, Option.pure_def] at h
          have hs : s = s1 ++ s2 := by simpa using h.symm
          cases t with
          | text str =>
            simp only [stripBaseList, serList]
            rw [h1, serList_stripBase f2 ctx st rest s2 h2]
            simp [hs]
          | ref k j =>
            simp only [stripBaseList, serList]
            rw [h1, serList_stripBase f2 ctx st rest s2 h2]
            simp [hs]
          | elem name attrs ch =>
            by_cases hb : name = "BASE"
            · subst hb
              have hs1 : s1 = "" := by
                cases f2 with
                | zero => simp [serNode] at h1
                | succ f3 =>
                  simp only [serNode, if_pos rfl] at h1
                  exact (Option.some.injEq _ _).mp h1 |>.symm
              simp only [stripBaseList]
              rw [if_pos trivial]
              have hrest := serList_stripBase f2 ctx st rest s2 h2
              have hrest2 := serList_mono ctx f2 (f2 + 1) st (stripBaseList rest) s2
                (by omega) hrest
              rw [hrest2, hs, hs1]
              rfl
            · simp only [stripBaseList, if_neg hb, serList]
              have hn : serNode ctx f2 st (stripBase (NodeT.elem name attrs ch)) = some s1 :=
                serNode_stripBase f2 ctx st _ s1 h1
              simp only [stripBase] at hn
              rw [hn, serList_stripBase f2 ctx st rest s2 h2]
              simp [hs]
end

/-- C4: BASE elements are dropped during serialization — a BASE element
serializes to the empty string regardless of attributes and children, and
any completed serialization of a tree equals that of the tree with every
BASE element removed, so the rendered document contains no BASE element. -/
theorem c4_base_dropped :
    (∀ (ctx : RenderCtx) (f : Nat) (st : Bool) (attrs : List (String × String))
        (ch : NodeList),
        serNode ctx (f + 1) st (NodeT.elem "BASE" attrs ch) = some "") ∧
    (∀ (ctx : RenderCtx) (f : Nat) (st : Bool) (t : NodeT) (s : String),
        serNode ctx f st t = some s → serNode ctx f st (stripBase t) = some s) := by
  constructor
  · intro ctx f st attrs ch
    simp [serNode]
  · intro ctx f st t s h
    exact serNode_stripBase f ctx st t s h

/-- C4 witness: a BASE element next to a text node contributes nothing, and
the render equals the render of the BASE-free tree. -/
theorem c4_witness :
    serNode c4Ctx 1 false (NodeT.elem "BASE" [("href", "http://evil.test/")] NodeList.nil) =
      some "" ∧
    serNode c4Ctx 4 false c4Tree = some "<div>hi</div>" ∧
    serNode c4Ctx 4 false (stripBase c4Tree) = some "<div>hi</div>" :=
  ⟨c4_base_dropped.1 c4Ctx 0 false [("href", "http://evil.test/")] NodeList.nil,
   by decide,
   c4_base_dropped.2 c4Ctx 4 false c4Tree "<div>hi</div>" (by decide)⟩

-- ===========================================================================
-- C1: supporting list lemmas
-- ===========================================================================

theorem get?_set_self {α : Type} (l : List α) (idx : Nat) (a : α) (h : idx < l.length) :
    (l.set idx a).get? idx = some a := by
  induction l generalizing idx with
  | nil => simp at h
  | cons x rest ih =>
    cases idx with
    | zero => rfl
    | succ m =>
      simp only [List.set, List.get?]
      exact ih m (by simpa using h)

theorem get?_set_other {α : Type} (l : List α) (idx m : Nat) (a : α) (h : m ≠ idx) :
    (l.set idx a).get? m = l.get? m := by
  induction l generalizing idx m with
  | nil => rfl
  | cons x rest ih =>
    cases idx with
    | zero =>
      cases m with
      | zero => exact absurd rfl h
      | succ m2 => rfl
    | succ idx2 =>
      cases m with
      | zero => rfl
      | succ m2 =>
        simp only [List.set, List.get?]
        exact ih idx2 m2 (fun he => h (by rw [he]))

theorem get?_some_lt {α : Type} (l : List α) (n : Nat) (a : α) (h : l.get? n = some a) :
    n < l.length := by
  induction l generalizing n with
  | nil => simp [List.get?] at h
  | cons x rest ih =>
    cases n with
    | zero => simp
    | succ m =>
      simp only [List.get?] at h
      have := ih m h
      simpa using Nat.succ_lt_succ this

theorem get?_some_mem {α : Type} (l : List α) (n : Nat) (a : α) (h : l.get? n = some a) :
    a ∈ l := by
  induction l generalizing n with
  | nil => simp [List.get?] at h
  | cons x rest ih =>
    cases n with
    | zero =>
      simp only [List.get?] at h
      cases h
      exact List.mem_cons_self _ _
    | succ m =>
      simp only [List.get?] at h
      exact List.mem_cons_of_mem x (ih m h)

-- ===========================================================================
-- C1: zero-offset references and the post-order list
-- ===========================================================================

mutual
theorem noZeroRef_postOrder (t : NodeT) (h : noZeroRef t = true) :
    ∀ n ∈ postOrder t, noZeroRef n = true := by
  cases t with
  | text str =>
    intro n hn
    simp [postOrder] at hn
    subst hn
    rfl
  | ref k j =>
    intro n hn
    simp [postOrder] at hn
    subst hn
    exact h
  | elem nm a ch =>
    intro n hn
    simp only [postOrder, List.mem_append, List.mem_singleton] at hn
    rcases hn with hn | hn
    · exact noZeroRefList_postOrderList ch h n hn
    · subst hn
      exact h
theorem noZeroRefList_postOrderList (ts : NodeList) (h : noZeroRefList ts = true) :
    ∀ n ∈ postOrderList ts, noZeroRef n = true := by
  cases ts with
  | nil =>
    intro n hn
    simp [postOrderList] at hn
  | cons t rest =>
    intro n hn
    simp only [postOrderList, List.mem_append] at hn
    have h2 := (Bool.and_eq_true _ _).mp h
    rcases hn with hn | hn
    · exact noZeroRef_postOrder t h2.1 n hn
    · exact noZeroRefList_postOrderList rest h2.2 n hn
end

theorem refTarget_swap (S S2 : List FrameSnapshot) (i k j : Nat)
    (hagree : ∀ m, m ≠ i → S2.get? m = S.get? m) (hkpos : 0 < k) :
    refTarget S2 i k j = refTarget S i k j := by
  unfold refTarget
  by_cases hk : k ≤ i
  · rw [if_pos hk, if_pos hk, hagree (i - k) (by omega)]
  · rw [if_neg hk, if_neg hk]

theorem refTarget_some (S : List FrameSnapshot) (i k j : Nat) (n : NodeT)
    (h : refTarget S i k j = some n) :
    k ≤ i ∧ ∃ snap, S.get? (i - k) = some snap ∧ n ∈ postOrder snap.root := by
  unfold refTarget at h
  by_cases hk : k ≤ i
  · rw [if_pos hk] at h
    cases hg : S.get? (i - k) with
    | none => rw [hg] at h; cases h
    | some snap =>
      rw [hg] at h
      exact ⟨hk, snap, rfl, get?_some_mem _ j n h⟩
  · rw [if_neg hk] at h
    cases h

-- ===========================================================================
-- C1: serialization only reads other snapshots when no zero-offset
-- references occur (context swap at the current index)
-- ===========================================================================

mutual
theorem serNode_swap (S S2 : List FrameSnapshot) (i : Nat) (u : UrlCtx)
    (hagree : ∀ m, m ≠ i → S2.get? m = S.get? m)
    (hnz : ∀ m snap, m ≠ i → S.get? m = some snap → noZeroRef snap.root = true)
    (f : Nat) (st : Bool) (t : NodeT) (ht : noZeroRef t = true) :
    serNode ⟨S2, i, u⟩ f st t = serNode ⟨S, i, u⟩ f st t := by
  cases f with
  | zero => rfl
  | succ f2 =>
    cases t with
    | text str => rfl
    | ref k j =>
      have hkpos : 0 < k := by simpa [noZeroRef] using ht
      simp only [serNode]
      rw [refTarget_swap S S2 i k j hagree hkpos]
      cases htar : refTarget S i k j with
      | none => rfl
      | some n =>
        obtain ⟨hk, snap, hget, hmem⟩ := refTarget_some S i k j n htar
        have hne : i - k ≠ i := by omega
        have hnzn : noZeroRef n = true :=
          noZeroRef_postOrder snap.root (hnz (i - k) snap hne hget) n hmem
        exact serNode_swap S S2 i u hagree hnz f2 st n hnzn
    | elem nm a ch =>
      simp only [serNode]
      by_cases hb : nm = "BASE"
      · rw [if_pos hb, if_pos hb]
      · rw [if_neg hb, if_neg hb]
        rw [serList_swap S S2 i u hagree hnz f2 (nm = "STYLE") ch ht]
theorem serList_swap (S S2 : List FrameSnapshot) (i : Nat) (u : UrlCtx)
    (hagree : ∀ m, m ≠ i → S2.get? m = S.get? m)
    (hnz : ∀ m snap, m ≠ i → S.get? m = some snap → noZeroRef snap.root = true)
    (f : Nat) (st : Bool) (ts : NodeList) (ht : noZeroRefList ts = true) :
    serList ⟨S2, i, u⟩ f st ts = serList ⟨S, i, u⟩ f st ts := by
  cases f with
  | zero => rfl
  | succ f2 =>
    cases ts with
    | nil => rfl
    | cons t rest =>
      have h2 := (Bool.and_eq_true _ _).mp ht
      simp only [serList]
      rw [serNode_swap S S2 i u hagree hnz f2 st t h2.1,
        serList_swap S S2 i u hagree hnz f2 st rest h2.2]
end

-- ===========================================================================
-- C1: splicing the referenced node in place of the reference
-- ===========================================================================

mutual
theorem serNode_splice (S S2 : List FrameSnapshot) (i : Nat) (u : UrlCtx) (k j : Nat)
    (n : NodeT)
    (hagree : ∀ m, m ≠ i → S2.get? m = S.get? m)
    (hnz : ∀ m snap, m ≠ i → S.get? m = some snap → noZeroRef snap.root = true)
    (htar : refTarget S i k j = some n)
    (p : List Nat) (t : NodeT) (f : Nat) (st : Bool) (s : String)
    (hpath : nodeAtPath t p = some (NodeT.ref k j)) (hnzt : noZeroRef t = true)
    (h : serNode ⟨S, i, u⟩ f st t = some s) :
    serNode ⟨S2, i, u⟩ f st (replaceAtPath t p n) = some s := by
  cases p with
  | nil =>
    have ht : t = NodeT.ref k j := by simpa [nodeAtPath] using hpath
    subst ht
    have hkpos : 0 < k := by simpa [noZeroRef] using hnzt
    cases f with
    | zero => simp [serNode] at h
    | succ f2 =>
      simp only [serNode] at h
      rw [htar] at h
      have h2 : serNode ⟨S, i, u⟩ f2 st n = some s := h
      obtain ⟨hk, snap, hget, hmem⟩ := refTarget_some S i k j n htar
      have hne : i - k ≠ i := by omega
      have hnzn : noZeroRef n = true :=
        noZeroRef_postOrder snap.root (hnz (i - k) snap hne hget) n hmem
      have h3 : serNode ⟨S2, i, u⟩ f2 st n = some s := by
        rw [serNode_swap S S2 i u hagree hnz f2 st n hnzn]
        exact h2
      have h4 := serNode_mono ⟨S2, i, u⟩ f2 (f2 + 1) st n s (by omega) h3
      simpa [replaceAtPath] using h4
  | cons c p2 =>
    cases t with
    | text str => simp [nodeAtPath] at hpath
    | ref k2 j2 => simp [nodeAtPath] at hpath
    | elem nm a ch =>
      have hpath2 : nodeAtPathList ch c p2 = some (NodeT.ref k j) := hpath
      cases f with
      | zero => simp [serNode] at h
      | succ f2 =>
        simp only [serNode, replaceAtPath] at h ⊢
        by_cases hb : nm = "BASE"
        · rw [if_pos hb] at h ⊢
          exact h
        · rw [if_neg hb] at h ⊢
          cases hl : serList ⟨S, i, u⟩ f2 (nm = "STYLE") ch with
          | none => rw [hl] at h; simp at h
          | some body =>
            rw [hl] at h
            rw [serList_splice S S2 i u k j n hagree hnz htar p2 c ch f2 (nm = "STYLE")
              body hpath2 hnzt hl]
            exact h
theorem serList_splice (S S2 : List FrameSnapshot) (i : Nat) (u : UrlCtx) (k j : Nat)
    (n : NodeT)
    (hagree : ∀ m, m ≠ i → S2.get? m = S.get? m)
    (hnz : ∀ m snap, m ≠ i → S.get? m = some snap → noZeroRef snap.root = true)
    (htar : refTarget S i k j = some n)
    (p : List Nat) (c : Nat) (ts : NodeList) (f : Nat) (st : Bool) (s : String)
    (hpath : nodeAtPathList ts c p = some (NodeT.ref k j)) (hnzt : noZeroRefList ts = true)
    (h : serList ⟨S, i, u⟩ f st ts = some s) :
    serList ⟨S2, i, u⟩ f st (replaceAtPathList ts c p n) = some s := by
  cases ts with
  | nil => simp [nodeAtPathList] at hpath
  | cons t rest =>
    have hnz2 := (Bool.and_eq_true _ _).mp hnzt
    cases f with
    | zero => simp [serList] at h
    | succ f2 =>
      simp only [serList] at h
      cases h1 : serNode ⟨S, i, u⟩ f2 st t with
      | none => rw [h1] at h; simp at h
      | some s1 =>
        rw [h1] at h
        cases hrest : serList ⟨S, i, u⟩ f2 st rest with
        | none => rw [hrest] at h; simp at h
        | some s2 =>
          rw [hrest] at h
          simp only [Option.some_bind, Option.pure_def] at h
          cases c with
          | zero =>
            have hpath2 : nodeAtPath t p = some (NodeT.ref k j) := hpath
            simp only [replaceAtPathList, serList]
            rw [serNode_splice S S2 i u k j n hagree hnz htar p t f2 st s1 hpath2
              hnz2.1 h1]
            rw [serList_swap S S2 i u hagree hnz f2 st rest hnz2.2, hrest]
            exact h
          | succ c2 =>
            have hpath2 : nodeAtPathList rest c2 p = some (NodeT.ref k j) := hpath
            simp only [replaceAtPathList, serList]
            rw [serNode_swap S S2 i u hagree hnz f2 st t hnz2.1, h1]
            rw [serList_splice S S2 i u k j n hagree hnz htar p c2 rest f2 st s2 hpath2
              hnz2.2 hrest]
            exact h
end

-- ===========================================================================
-- C1: replacing the current snapshot's root does not disturb metadata,
-- overrides, or the other snapshots
-- ===========================================================================

theorem setRootAt_get?_other (S : List FrameSnapshot) (i : Nat) (r : NodeT) (m : Nat)
    (hm : m ≠ i) : (setRootAt S i r).get? m = S.get? m := by
  unfold setRootAt
  cases hg : S.get? i with
  | none => rfl
  | some snap => exact get?_set_other S i m _ hm

theorem setRootAt_get?_self (S : List FrameSnapshot) (i : Nat) (r : NodeT)
    (snap : FrameSnapshot) (hg : S.get? i = some snap) :
    (setRootAt S i r).get? i =
      some ⟨snap.snapshotName, snap.frameUrl, snap.timestamp, snap.doctype,
        snap.viewport, r, snap.overrides⟩ := by
  unfold setRootAt
  rw [hg]
  exact get?_set_self S i _ (get?_some_lt S i snap hg)

theorem overridesAt_setRootAt (S : List FrameSnapshot) (i : Nat) (r : NodeT) (m : Nat) :
    overridesAt (setRootAt S i r) m = overridesAt S m := by
  by_cases hm : m = i
  · subst hm
    cases hg : S.get? m with
    | none =>
      unfold setRootAt
      rw [hg]
    | some snap =>
      unfold overridesAt
      rw [setRootAt_get?_self S m r snap hg, hg]
  · unfold overridesAt
    rw [setRootAt_get?_other S i r m hm]

theorem frameUrlAt_setRootAt (S : List FrameSnapshot) (i : Nat) (r : NodeT) :
    frameUrlAt (setRootAt S i r) i = frameUrlAt S i := by
  cases hg : S.get? i with
  | none =>
    unfold setRootAt
    rw [hg]
  | some snap =>
    unfold frameUrlAt
    rw [setRootAt_get?_self S i r snap hg, hg]

theorem applyOverride_setRootAt (S : List FrameSnapshot) (i : Nat) (r : NodeT)
    (M : List (String × String)) (o : ResourceOverride) :
    applyOverride (setRootAt S i r) i M o = applyOverride S i M o := by
  unfold applyOverride
  simp only [overridesAt_setRootAt]

theorem buildOverrideMap_setRootAt (S : List FrameSnapshot) (i : Nat) (r : NodeT) :
    buildOverrideMap (setRootAt S i r) i = buildOverrideMap S i := by
  unfold buildOverrideMap
  rw [overridesAt_setRootAt]
  exact List.foldl_ext _ _ [] (fun M o _ => applyOverride_setRootAt S i r M o)

theorem renderDocF_mono (S : List FrameSnapshot) (i : Nat) (net : List (String × String))
    (resolve : String → String → String) (f g : Nat) (out : String) (hfg : f ≤ g)
    (h : renderDocF S i net resolve f = some out) : renderDocF S i net resolve g = some out := by
  unfold renderDocF at h ⊢
  cases hg : S.get? i with
  | none => rw [hg] at h; simp at h
  | some snap =>
    rw [hg] at h
    simp only [Option.some_bind] at h ⊢
    cases hs : serNode (mkRenderCtx S i net resolve) f false snap.root with
    | none => rw [hs] at h; simp at h
    | some body =>
      rw [hs] at h
      rw [serNode_mono (mkRenderCtx S i net resolve) f g false snap.root body hfg hs]
      exact h

-- ===========================================================================
-- C1
-- ===========================================================================

/-- C1 counterexample: one snapshot whose root is
`D [ ref[0,2], E[ "A" ], ref[0,2] ]`.  The reference at child path `[0]`
satisfies `k ≤ i` and points at a valid post-order index (the `E` element),
yet replacing it verbatim changes the snapshot's own post-order numbering,
so the remaining zero-offset reference resolves differently and the rendered
outputs of the original and the spliced list differ. -/
theorem c1_counterexample :
    nodeAtPath (rootAt c1CexList 0) [0] = some (NodeT.ref 0 2) ∧
    refTarget c1CexList 0 0 2 = some c1CexNode ∧
    RendersTo c1CexList 0 [] cexResolve
      ((renderDocF c1CexList 0 [] cexResolve 10).getD "") ∧
    RendersTo c1CexSpliced 0 [] cexResolve
      ((renderDocF c1CexSpliced 0 [] cexResolve 10).getD "") ∧
    (renderDocF c1CexList 0 [] cexResolve 10).getD "" ≠
      (renderDocF c1CexSpliced 0 [] cexResolve 10).getD "" :=
  ⟨by decide, by decide, ⟨10, by decide⟩, ⟨10, by decide⟩, by decide⟩

/-- C1 (amended): provided no snapshot of the frame's list contains a
zero-offset subtree reference, replacing a reference `[k, j]` of snapshot
`i` (with `k ≤ i` and `j` valid in the post-order list of snapshot `i − k`)
verbatim by the referenced node preserves the renderer's output: whenever
the original list renders, the modified list renders to the same string,
and to nothing else. -/
theorem c1_amended (S : List FrameSnapshot) (i : Nat) (p : List Nat) (k j : Nat)
    (n : NodeT) (net : List (String × String)) (resolve : String → String → String)
    (out : String)
    (hnzS : allNoZeroRef S = true)
    (hpath : nodeAtPath (rootAt S i) p = some (NodeT.ref k j))
    (hk : k ≤ i)
    (htar : refTarget S i k j = some n)
    (hrender : RendersTo S i net resolve out) :
    RendersTo (setRootAt S i (replaceAtPath (rootAt S i) p n)) i net resolve out ∧
    (∀ out2,
      RendersTo (setRootAt S i (replaceAtPath (rootAt S i) p n)) i net resolve out2 →
      out2 = out) := by
  obtain ⟨fuel, hdoc⟩ := hrender
  have hnzAll : ∀ m snap, S.get? m = some snap → noZeroRef snap.root = true := by
    intro m snap hm
    have := List.all_eq_true.mp hnzS _ (get?_some_mem S m snap hm)
    simpa using this
  have hagree : ∀ m, m ≠ i →
      (setRootAt S i (replaceAtPath (rootAt S i) p n)).get? m = S.get? m :=
    fun m hm => setRootAt_get?_other S i _ m hm
  have hnz : ∀ m snap, m ≠ i → S.get? m = some snap → noZeroRef snap.root = true :=
    fun m snap _ hm => hnzAll m snap hm
  unfold renderDocF at hdoc
  cases hgi : S.get? i with
  | none => rw [hgi] at hdoc; simp at hdoc
  | some snap =>
    rw [hgi] at hdoc
    simp only [Option.some_bind] at hdoc
    cases hser : serNode (mkRenderCtx S i net resolve) fuel false snap.root with
    | none => rw [hser] at hdoc; simp at hdoc
    | some body =>
      rw [hser] at hdoc
      have hout : some ("<!DOCTYPE " ++ snap.doctype.getD "html" ++ ">\n" ++
          snapshotComment snap ++ "\n" ++ body ++ kRestorationScript) = some out := hdoc
      have hroot : rootAt S i = snap.root := by
        unfold rootAt
        rw [hgi]
      have hM := buildOverrideMap_setRootAt S i (replaceAtPath (rootAt S i) p n)
      have hF := frameUrlAt_setRootAt S i (replaceAtPath (rootAt S i) p n)
      have hget2 := setRootAt_get?_self S i (replaceAtPath (rootAt S i) p n) snap hgi
      have hnzr : noZeroRef (rootAt S i) = true := by
        rw [hroot]
        exact hnzAll i snap hgi
      have hser2 : serNode (mkRenderCtx S i net resolve) fuel false (rootAt S i) =
          some body := by
        rw [hroot]
        exact hser
      have hsplice :
          serNode ⟨setRootAt S i (replaceAtPath (rootAt S i) p n), i,
              (mkRenderCtx S i net resolve).urls⟩ fuel false
            (replaceAtPath (rootAt S i) p n) = some body :=
        serNode_splice S _ i (mkRenderCtx S i net resolve).urls k j n hagree hnz htar
          p (rootAt S i) fuel false body hpath hnzr hser2
      have hmk : mkRenderCtx (setRootAt S i (replaceAtPath (rootAt S i) p n)) i net resolve =
          ⟨setRootAt S i (replaceAtPath (rootAt S i) p n), i,
            (mkRenderCtx S i net resolve).urls⟩ := by
        unfold mkRenderCtx
        rw [hM, hF]
      have hdoc2 : renderDocF (setRootAt S i (replaceAtPath (rootAt S i) p n)) i net resolve
          fuel = some out := by
        unfold renderDocF
        rw [hget2]
        simp only [Option.some_bind]
        rw [hmk, hsplice]
        exact hout
      refine ⟨⟨fuel, hdoc2⟩, ?_⟩
      intro out2 hout2
      obtain ⟨fuel2, hdoc3⟩ := hout2
      have hA := renderDocF_mono _ i net resolve fuel (max fuel fuel2) out
        (le_max_left _ _) hdoc2
      have hB := renderDocF_mono _ i net resolve fuel2 (max fuel fuel2) out2
        (le_max_right _ _) hdoc3
      exact Option.some.inj (hB.symm.trans hA)

/-- C1 witness: the amended theorem at a two-snapshot list whose current
root holds the backward reference `[1, 1]`. -/
theorem c1_witness :
    allNoZeroRef c1WitList = true ∧
    nodeAtPath (rootAt c1WitList 1) [0] = some (NodeT.ref 1 1) ∧
    refTarget c1WitList 1 1 1 = some c1WitNode ∧
    RendersTo c1WitList 1 [] cexResolve
      ((renderDocF c1WitList 1 [] cexResolve 10).getD "") ∧
    RendersTo (setRootAt c1WitList 1 (replaceAtPath (rootAt c1WitList 1) [0] c1WitNode)) 1
      [] cexResolve ((renderDocF c1WitList 1 [] cexResolve 10).getD "") :=
  ⟨by decide, by decide, by decide, ⟨10, by decide⟩,
    (c1_amended c1WitList 1 [0] 1 1 c1WitNode [] cexResolve
      ((renderDocF c1WitList 1 [] cexResolve 10).getD "") (by decide) (by decide)
      (by decide) (by decide) ⟨10, by decide⟩).1⟩
